import Mathlib

/-!
Verification development for the NoRegrets+ reimplementation
(model-generation tracer in `generatemodel.js`, replay checker in
`check-type.js`, shared helpers in `lib/utils.js`).

The JavaScript sources are shallowly embedded: JS runtime values are the
inductive `JSValue`, recorded type tags are `JType`, access-path components
are `PathComp`, the tracer's path tree is `PTree` and the replayer's model
tree is `MNode`.  JS objects used as string-keyed dictionaries are embedded
as insertion-ordered association lists.  Thrown JS exceptions are embedded
with `Except JsError`.  Mutable in-place updates are embedded as functions
returning the updated value.
-/

/-- JsError distinguishes the two kinds of exception the embedded code can
raise: `jsError` for an explicit `throw new Error(msg)` and `typeError` for
a TypeError raised by the JS runtime itself (e.g. iterating a non-iterable,
or reading a property of undefined). -/
inductive JsError where
  | jsError (msg : String)
  | typeError (msg : String)
deriving DecidableEq, Repr

/-- JNum embeds the JS number domain at the precision this program needs:
finite numbers (as rationals), the two infinities and NaN.  JS `===` on
numbers is `jsNumEq` below (NaN is not equal to itself). -/
inductive JNum where
  | finite (q : Rat)
  | posInf
  | negInf
  | nan
deriving DecidableEq, Repr

/-- JLit is a primitive JS value: the payload of a refined literal type tag
`{primType, value}` produced by `getArgumentType`, and the leaf values the
JSON serializer's replacer sees. -/
inductive JLit where
  | str (s : String)
  | num (n : JNum)
  | bool (b : Bool)
deriving DecidableEq, Repr

/-- PathComp embeds the six access-path component variants with their
identity keys (`compType` discriminator plus `moduleName` / `propName` /
`callId` / `argId`). -/
inductive PathComp where
  | require (moduleName : String)
  | accessProp (propName : String)
  | writeProp (propName : String)
  | arg (callId : String) (argId : Nat)
  | call (callId : String)
  | new (callId : String)
deriving DecidableEq, Repr

/-- compType returns the `compType` discriminator string of a component. -/
def PathComp.compType : PathComp → String
  | .require _ => "require"
  | .accessProp _ => "accessProp"
  | .writeProp _ => "writeProp"
  | .arg _ _ => "arg"
  | .call _ => "call"
  | .new _ => "new"

/-- JType embeds a recorded type: either a bare string tag (the strings
returned by `getType`), a refined primitive literal object
`{primType, value}` (returned by `getArgumentType` for primitives), or the
JS value `null` (accepted by `checkCompatible` as "untyped"). -/
inductive JType where
  | tag (s : String)
  | prim (primType : String) (value : JLit)
  | jnull
deriving DecidableEq, Repr

/-- isCovariant embeds `isCovariant` from `src/lib/utils.js` (lines 74-82):
it counts the components whose `compType` is `'arg'` or `'writeProp'` with a
running counter and tests the count for evenness. -/
def isCovariant (path : List PathComp) : Bool :=
  (path.foldl
    (fun arrowCount pathComp =>
      if pathComp.compType = "arg" ∨ pathComp.compType = "writeProp" then
        arrowCount + 1
      else arrowCount)
    0) % 2 = 0

mutual

/-- MNode embeds a node of the replayer's model tree built by
`constructModelTree` in `check-type.js`: the labelling component `p` (none
at the root), the recorded `type` and `order` of the path ending here, the
mutable replay flags `processed` / `empty` and cell `obj`, the list of
children in insertion order, and the accumulated path `ap`.  The `parent`
back-pointer of the source is not embedded; handlers that consult the
parent receive the needed parent data as arguments.  In a well-formed model
every node is the terminal node of some serialized path (the tracer emits
every prefix), so `order` is embedded as the `Nat` index the node receives
in `constructModelTree`. -/
inductive MNode where
  | mk (p : Option PathComp) (type : Option JType) (order : Nat)
      (processed : Bool) (empty : Bool) (obj : Option JSValue)
      (children : List MNode) (ap : List PathComp)

/-- JSValue embeds the JS runtime values this program distinguishes.
Non-primitive values are embedded by the classification the sources test
for (`Array.isArray`, `instanceof Map/Set/Error`, `typeof`): their
identity and contents never matter to the traced/checked logic.
`vProxy target path` is a tracer mediator built by `getProxy` in
`generatemodel.js` (transparent to `typeof`, `Array.isArray` and
`instanceof`; reading `@@__PATH__@@` on it yields `path`).
`vSynthProxy node isFun` is a replay-side synthetic proxy built by
`getProxy` in `check-type.js` around `{}` (`isFun = false`) or a function
(`isFun = true`). -/
inductive JSValue where
  | vNull
  | vUndefined
  | vStr (s : String)
  | vNum (n : JNum)
  | vBool (b : Bool)
  | vArray
  | vMap
  | vSet
  | vError
  | vObject
  | vFunction
  | vProxy (target : JSValue) (path : List PathComp)
  | vSynthProxy (node : MNode) (isFun : Bool)

end

/-- children projects the child list of a model-tree node. -/
def MNode.children : MNode → List MNode
  | .mk _ _ _ _ _ _ cs _ => cs

/-- ap projects the accumulated path of a model-tree node. -/
def MNode.ap : MNode → List PathComp
  | .mk _ _ _ _ _ _ _ ap => ap

/-- p projects the labelling path component of a model-tree node. -/
def MNode.p : MNode → Option PathComp
  | .mk p _ _ _ _ _ _ _ => p

/-- type projects the recorded type of a model-tree node. -/
def MNode.type : MNode → Option JType
  | .mk _ ty _ _ _ _ _ _ => ty

/-- order projects the replay order of a model-tree node. -/
def MNode.order : MNode → Nat
  | .mk _ _ ord _ _ _ _ _ => ord

/-- processed projects the `processed` replay flag of a model-tree node. -/
def MNode.processed : MNode → Bool
  | .mk _ _ _ pr _ _ _ _ => pr

/-- empty projects the `empty` replay flag of a model-tree node. -/
def MNode.empty : MNode → Bool
  | .mk _ _ _ _ em _ _ _ => em

/-- obj projects the reconstructed runtime value of a model-tree node. -/
def MNode.obj : MNode → Option JSValue
  | .mk _ _ _ _ _ obj _ _ => obj

/-- setProcessed embeds the mutation `node.processed = true`. -/
def MNode.setProcessed : MNode → MNode
  | .mk p ty ord _ em obj cs ap => .mk p ty ord true em obj cs ap

/-- setEmpty embeds the mutation `node.empty = true`. -/
def MNode.setEmpty : MNode → MNode
  | .mk p ty ord pr _ obj cs ap => .mk p ty ord pr true obj cs ap

/-- setObj embeds the mutation `node.obj = v`. -/
def MNode.setObj : MNode → JSValue → MNode
  | .mk p ty ord pr em _ cs ap, v => .mk p ty ord pr em (some v) cs ap

/-- jsTypeof embeds the JS `typeof` operator on the embedded value domain.
A `Proxy` reports the `typeof` of its target. -/
def jsTypeof : JSValue → String
  | .vNull => "object"
  | .vUndefined => "undefined"
  | .vStr _ => "string"
  | .vNum _ => "number"
  | .vBool _ => "boolean"
  | .vArray => "object"
  | .vMap => "object"
  | .vSet => "object"
  | .vError => "object"
  | .vObject => "object"
  | .vFunction => "function"
  | .vProxy target _ => jsTypeof target
  | .vSynthProxy _ isFun => if isFun then "function" else "object"

/-- getType embeds `getType` from `src/lib/utils.js` (lines 5-32): the
sequential if-chain `null`, `undefined`, `typeof string`, `typeof number`,
`Array.isArray`, `boolean`, `instanceof Set`, `instanceof Map`,
`instanceof Error`, `typeof object`, `typeof function`; any value matching
none of these (not representable here) would keep the initial `''`.  The
doc comment on the source function reads "Get type of a contravariant
path."  The constructors of `JSValue` are disjoint classes, so the chain
is a single dispatch; a `Proxy` is transparent to every test in the chain
and dispatches as its target. -/
def getType : JSValue → JType
  | .vNull => .tag "null"
  | .vUndefined => .tag "undefined"
  | .vStr _ => .tag "string"
  | .vNum _ => .tag "number"
  | .vArray => .tag "array"
  | .vBool _ => .tag "boolean"
  | .vSet => .tag "set"
  | .vMap => .tag "map"
  | .vError => .tag "error"
  | .vObject => .tag "object"
  | .vFunction => .tag "function"
  | .vProxy target _ => getType target
  | .vSynthProxy _ isFun => if isFun then .tag "function" else .tag "object"

/-- getArgumentType embeds `getArgumentType` from `src/lib/utils.js`
(lines 37-69): `null`, `undefined`, then primitives refined to the literal
object `{primType: typeof arg, value: arg}`, then `Array`, `Error`, `Map`,
`Set`, `object`, `function` (the second dead `Array.isArray` check and the
unreachable trailing `return typeof arg` are not representable on this
value domain).  The doc comment on the source function reads "Get type of
a covariant path." -/
def getArgumentType : JSValue → JType
  | .vNull => .tag "null"
  | .vUndefined => .tag "undefined"
  | .vStr s => .prim "string" (.str s)
  | .vNum n => .prim "number" (.num n)
  | .vBool b => .prim "boolean" (.bool b)
  | .vArray => .tag "array"
  | .vError => .tag "error"
  | .vMap => .tag "map"
  | .vSet => .tag "set"
  | .vObject => .tag "object"
  | .vFunction => .tag "function"
  | .vProxy target _ => getArgumentType target
  | .vSynthProxy _ isFun => if isFun then .tag "function" else .tag "object"

/-- recordedType embeds the type selection the tracer performs at every
recording site of `getProxy` in `generatemodel.js` — property read (line
697), property write (line 708), argument of an apply (line 719), apply
result (line 736), argument of a construct (line 753) and construct result
(line 769) — each of which reads
`isCovariant(newPath) ? getType(v) : getArgumentType(v)`. -/
def recordedType (newPath : List PathComp) (v : JSValue) : JType :=
  if isCovariant newPath then getType v else getArgumentType v

/-- jsNumEq embeds numeric equality as JS `===` / `==` compute it on two
numbers: NaN is not equal to anything, including itself. -/
def jsNumEq : JNum → JNum → Bool
  | .finite a, .finite b => a = b
  | .posInf, .posInf => true
  | .negInf, .negInf => true
  | _, _ => false

/-- jsToNumber models the ECMAScript ToNumber conversion on strings, at the
precision needed for the string payloads this program serializes: the empty
string converts to 0, the `Infinity` spellings to the infinities, a string
of decimal digits (with optional sign) to that integer, and every other
string (including `"NaN"`) to NaN.  Fractional and exponent syntax, hex
literals and surrounding whitespace are not modelled; no recorded payload
in this program uses them. -/
def jsToNumber (s : String) : JNum :=
  if s = "" then .finite 0
  else if s = "Infinity" ∨ s = "+Infinity" then .posInf
  else if s = "-Infinity" then .negInf
  else
    match s.toInt? with
    | some i => .finite (i : Rat)
    | none => .nan

/-- boolToNum models ECMAScript ToNumber on booleans. -/
def boolToNum (b : Bool) : JNum := .finite (if b then 1 else 0)

/-- jsLooseEq models the JS loose equality `==` on the primitive leaves the
`deep-equal` package compares in its default (non-strict) mode: same-type
comparison is value equality (with NaN unequal to itself), and mixed
number/string/boolean comparisons convert to numbers. -/
def jsLooseEq : JLit → JLit → Bool
  | .num a, .num b => jsNumEq a b
  | .str a, .str b => a = b
  | .bool a, .bool b => a = b
  | .num a, .str s => jsNumEq a (jsToNumber s)
  | .str s, .num b => jsNumEq (jsToNumber s) b
  | .bool a, .num b => jsNumEq (boolToNum a) b
  | .num a, .bool b => jsNumEq a (boolToNum b)
  | .bool a, .str s => jsNumEq (boolToNum a) (jsToNumber s)
  | .str s, .bool b => jsNumEq (jsToNumber s) (boolToNum b)

/-- deepEqualJType models the npm `deep-equal` package (required without
options, hence in its default loose mode) applied to two recorded types:
two string tags compare as strings; `null` equals `null`; two literal
objects `{primType, value}` compare key-wise, the string `primType`s as
strings and the `value`s with loose `==` (`jsLooseEq`); an object never
equals a string or `null`. -/
def deepEqualJType : JType → JType → Bool
  | .tag a, .tag b => a = b
  | .jnull, .jnull => true
  | .prim p1 v1, .prim p2 v2 => p1 = p2 ∧ jsLooseEq v1 v2
  | _, _ => false

/-- jsStrictEqJType models JS `===` on two recorded types: string tags
compare by value, `null === null` holds, and two literal objects compare by
reference — in this program the two operands of `checkCompatible` are a
freshly computed type and a type parsed from the model file, which are
never the same heap object, so object-object `===` is `false`. -/
def jsStrictEqJType : JType → JType → Bool
  | .tag a, .tag b => a = b
  | .jnull, .jnull => true
  | _, _ => false

/-- checkCompatible embeds `checkCompatible` from `src/check-type.js`
(lines 191-207): accept when `type2 === null`; accept when
`type2 === 'object'` and `type1` is `'object'`, `'function'`, `'map'` or
`'set'`; accept when `type2 === type1`; accept when
`deepEqual(type2, type1)`; otherwise reject. -/
def checkCompatible (type1 type2 : JType) : Bool :=
  if type2 = .jnull then true
  else if type2 = .tag "object" ∧
      (type1 = .tag "object" ∨ type1 = .tag "function" ∨
        type1 = .tag "map" ∨ type1 = .tag "set") then true
  else if jsStrictEqJType type2 type1 then true
  else if deepEqualJType type2 type1 then true
  else false

/-- checkCompatibleOpt lifts `checkCompatible` to a possibly missing
required type, as at replay sites where `node.type` may be `undefined`: no
clause of `checkCompatible` accepts an `undefined` required type
(`undefined !== null`, `undefined !== 'object'`, `undefined` is `===` /
`deepEqual` only to `undefined`, and the freshly computed first argument is
never `undefined`), so the result is `false`. -/
def checkCompatibleOpt (type1 : JType) : Option JType → Bool
  | some type2 => checkCompatible type1 type2
  | none => false

/-- RWarning embeds one `logger.warn` record of the replayer: the breaking
path and the optional `reason` string. -/
structure RWarning where
  breakingPath : List PathComp
  reason : Option String
deriving DecidableEq, Repr

/-- synthesizeValue embeds `synthesizeValue` from `src/check-type.js`
(lines 132-186).  The source tests `node.type` against the strings
`'undefined'`, `'null'`, the proxy group `'object' | 'array' | 'set' |
'map' | 'boolean' | 'number' | 'string'` (wrapping `{}` in the lazy proxy
`getProxy(node, {})`), and `'function'` (wrapping a host function); then
`node.type.primType` selects the literal branch with the `'Infinity'` and
`'NaN'` sentinel decodings; any other string type falls through every test
(a string has no `primType` property) and reaches
`throw new Error('Cannot synthesize the value, type: ' + node.type)`.
When `node.type` is the JS value `null` or is absent, the member access
`node.type.primType` itself raises a TypeError. -/
def synthesizeValue (node : MNode) : Except JsError JSValue :=
  match node.type with
  | some ty =>
    if ty = .tag "undefined" then .ok .vUndefined
    else if ty = .tag "null" then .ok .vNull
    else if ty = .tag "object" ∨ ty = .tag "array" ∨ ty = .tag "set" ∨
        ty = .tag "map" ∨ ty = .tag "boolean" ∨ ty = .tag "number" ∨
        ty = .tag "string" then .ok (.vSynthProxy node false)
    else if ty = .tag "function" then .ok (.vSynthProxy node true)
    else
      match ty with
      | .prim primType value =>
        if primType = "number" ∧ value = .str "Infinity" then
          .ok (.vNum .posInf)
        else if primType = "number" ∧ value = .str "NaN" then
          .ok (.vNum .nan)
        else
          .ok (match value with
            | .str s => .vStr s
            | .num n => .vNum n
            | .bool b => .vBool b)
      | .tag s =>
        .error (.jsError ("Cannot synthesize the value, type: " ++ s))
      | .jnull =>
        .error (.typeError "Cannot read properties of null")
  | none => .error (.typeError "Cannot read properties of undefined")

/-- writePropStep embeds the `writeProp` handler of `traverseTree` in
`src/check-type.js` (lines 283-297).  The parent's `empty` flag and `obj`
cell are passed as arguments in place of the `node.parent` back-pointer.
The result carries the updated node, the value written into
`parent.obj[propName]` (if any) and the warnings emitted; an exception
raised by `synthesizeValue` propagates (the handler has no try/catch), in
which case `node.processed` has not yet been set. -/
def writePropStep (node : MNode) (parentEmpty : Bool)
    (parentObj : Option JSValue) :
    Except JsError (MNode × Option JSValue × List RWarning) :=
  if node.processed then .ok (node, none, [])
  else if parentEmpty = false then
    match parentObj with
    | some _ => do
      let v ← synthesizeValue node
      .ok (node.setProcessed, some v, [])
    | none =>
      .ok (node.setEmpty.setProcessed, none,
        [⟨node.ap, some "set property of undefined"⟩])
  else .ok (node.setEmpty.setProcessed, none, [])

/-- argStep embeds the `arg` handler of `traverseTree` in
`src/check-type.js` (lines 299-322).  The ρ-relation scan over
`rhoRelations` (traversing an unprocessed source node and copying its
`obj`) is summarized by the argument `rhoInput`: `some v` when some
relation names this node as sink and delivers `v`, `none` otherwise.  When
there is no ρ input the value is synthesized, and an exception raised by
`synthesizeValue` propagates uncaught. -/
def argStep (node : MNode) (rhoInput : Option JSValue) :
    Except JsError MNode :=
  if node.processed then .ok node
  else
    match rhoInput with
    | some v => .ok ((node.setObj v).setProcessed)
    | none => do
      let v ← synthesizeValue node
      .ok ((node.setObj v).setProcessed)

/-- callNodeTry embeds the try/catch region of the `call` handler of
`traverseTree` in `src/check-type.js` (lines 342-353): the library
invocation `node.parent.obj.apply(thisObj, argArray)` is summarized by its
outcome `invokeResult`.  On success the produced type is computed with the
variance dispatch, checked against the recorded `node.type` (warning on
incompatibility), and the node stores the result and is marked processed;
on an exception the catch block only logs an info line and marks the node
processed, leaving `obj` untouched, and the handler returns normally so
the driver's `findNextNode` loop continues. -/
def callNodeTry (node : MNode) (invokeResult : Except JsError JSValue) :
    MNode × List RWarning :=
  match invokeResult with
  | .ok result =>
    let type := if isCovariant node.ap then getType result
      else getArgumentType result
    let warns := if checkCompatibleOpt type node.type then []
      else [⟨node.ap, none⟩]
    ((node.setObj result).setProcessed, warns)
  | .error _ => (node.setProcessed, [])

/-- newNodeTry embeds the try/catch region of the `new` handler of
`traverseTree` in `src/check-type.js` (lines 372-383); it is the `call`
region with `Reflect.construct(node.parent.obj, argArray)` as the
summarized invocation. -/
def newNodeTry (node : MNode) (invokeResult : Except JsError JSValue) :
    MNode × List RWarning :=
  match invokeResult with
  | .ok result =>
    let type := if isCovariant node.ap then getType result
      else getArgumentType result
    let warns := if checkCompatibleOpt type node.type then []
      else [⟨node.ap, none⟩]
    ((node.setObj result).setProcessed, warns)
  | .error _ => (node.setProcessed, [])

mutual

/-- findNextNode embeds `findNextNode` from `src/check-type.js` (lines
218-238): scan the children; an unprocessed child becomes (or lowers) the
running minimum `minNode`; for a processed child, recurse, and adopt the
recursive result `m` only under the source's guard
`minNode !== undefined && m.order < minNode.order`. -/
def findNextNode : MNode → Option MNode
  | .mk _ _ _ _ _ _ cs _ => fnnChildren cs none

/-- fnnChildren is the child-list loop of `findNextNode`, with `minNode`
threaded as an accumulator. -/
def fnnChildren : List MNode → Option MNode → Option MNode
  | [], minNode => minNode
  | c :: rest, minNode =>
    if c.processed = false then
      match minNode with
      | none => fnnChildren rest (some c)
      | some m =>
        fnnChildren rest (some (if c.order < m.order then c else m))
    else
      match findNextNode c, minNode with
      | none, acc => fnnChildren rest acc
      | some _, none => fnnChildren rest none
      | some m, some mn =>
        fnnChildren rest (some (if m.order < mn.order then m else mn))

end

/-- allNodes lists every node of a forest: each root of the list followed
by its descendants.  `allNodes t.children` is the set of (proper)
descendants of `t`, the candidates the specification says `findNextNode`
chooses among. -/
def allNodes : List MNode → List MNode
  | [] => []
  | .mk p ty ord pr em obj cs ap :: rest =>
    .mk p ty ord pr em obj cs ap :: (allNodes cs ++ allNodes rest)

/-- jsonReplacer embeds the replacer function passed to `JSON.stringify`
when the tracer writes the model (`generatemodel.js` lines 1076-1084):
`v === Infinity` is rewritten to the string `'Infinity'`,
`Number.isNaN(v)` to the string `'NaN'` (`Number.isNaN` does not coerce,
so only the NaN number matches), every other value is returned as is. -/
def jsonReplacer (v : JLit) : JLit :=
  if v = .num .posInf then .str "Infinity"
  else if v = .num .nan then .str "NaN"
  else v

/-- serializeType applies the `JSON.stringify` replacer to a recorded type:
the replacer visits every value of the JSON tree, so inside a literal tag
`{primType, value}` it rewrites the `value` (the `primType` strings and the
bare string tags are left unchanged, as the replacer is the identity on
strings). -/
def serializeType : JType → JType
  | .prim primType value => .prim primType (jsonReplacer value)
  | t => t

/-- lookupAssoc embeds reading `obj[k]` on a JS object used as a
dictionary, with the object embedded as an insertion-ordered association
list (prototype-inherited names are not modelled: no key this program uses
collides with `Object.prototype`). -/
def lookupAssoc [DecidableEq κ] (k : κ) : List (κ × α) → Option α
  | [] => none
  | (k1, v) :: rest => if k1 = k then some v else lookupAssoc k rest

/-- setAssoc embeds the assignment `obj[k] = v` on a JS dictionary object:
an existing key keeps its position and gets the new value, a new key is
appended. -/
def setAssoc [DecidableEq κ] (k : κ) (v : α) : List (κ × α) → List (κ × α)
  | [] => [(k, v)]
  | (k1, v1) :: rest =>
    if k1 = k then (k1, v) :: rest else (k1, v1) :: setAssoc k v rest

/-- PTree embeds a node of the tracer's path tree (`generatemodel.js`
lines 572-582 for the root, and the node literals in `addPathAndType`):
the labelling component `p`, the recorded `type` and `order`, and the six
child collections.  In the source only the root carries a
`requireChildren` collection; here every node carries one, empty on
non-root nodes (no path uses a `require` component after the first, so the
collection is never consulted there).  The `parent` back-pointer is not
embedded. -/
inductive PTree where
  | mk (p : Option PathComp) (type : Option JType) (order : Option Nat)
      (requireChildren : List (String × PTree))
      (accessPropChildren : List (String × PTree))
      (writePropChildren : List (String × PTree))
      (callChildren : List (String × PTree))
      (newChildren : List (String × PTree))
      (argChildren : List (String × List (Nat × PTree)))

/-- requireChildren projects the `require` child collection. -/
def PTree.requireChildren : PTree → List (String × PTree)
  | .mk _ _ _ rq _ _ _ _ _ => rq

/-- accessPropChildren projects the `accessProp` child collection. -/
def PTree.accessPropChildren : PTree → List (String × PTree)
  | .mk _ _ _ _ ac _ _ _ _ => ac

/-- writePropChildren projects the `writeProp` child collection. -/
def PTree.writePropChildren : PTree → List (String × PTree)
  | .mk _ _ _ _ _ wc _ _ _ => wc

/-- callChildren projects the `call` child collection. -/
def PTree.callChildren : PTree → List (String × PTree)
  | .mk _ _ _ _ _ _ cc _ _ => cc

/-- newChildren projects the `new` child collection. -/
def PTree.newChildren : PTree → List (String × PTree)
  | .mk _ _ _ _ _ _ _ nc _ => nc

/-- argChildren projects the nested `arg` child collection
(callId → argId → node). -/
def PTree.argChildren : PTree → List (String × List (Nat × PTree))
  | .mk _ _ _ _ _ _ _ _ ag => ag

/-- freshPTreeNode embeds the node literal `addPathAndType` creates for a
missing child (`generatemodel.js` lines 602-640): the component, empty
child collections, the type of the whole path being added, and the next
value of the global `order` counter. -/
def freshPTreeNode (pathComp : PathComp) (type : JType) (order : Nat) :
    PTree :=
  .mk (some pathComp) (some type) (some order) [] [] [] [] [] []

/-- addPathAndType embeds `addPathAndType` from `generatemodel.js` (lines
597-646).  The walk descends the tree one component at a time, creating a
missing child as `freshPTreeNode` (which consumes one value of the global
mutable `order` counter, threaded here as the `order` argument and
returned updated); an existing child is left exactly as found.  Every
created node stores the `type` passed for the whole path, as in the
source. -/
def addPathAndType : List PathComp → JType → PTree → Nat → PTree × Nat
  | [], _, t, order => (t, order)
  | pathComp :: rest, type, .mk p ty ord rq ac wc cc nc ag, order =>
    match pathComp with
    | .require moduleName =>
      match lookupAssoc moduleName rq with
      | some child =>
        let (child2, order2) := addPathAndType rest type child order
        (.mk p ty ord (setAssoc moduleName child2 rq) ac wc cc nc ag, order2)
      | none =>
        let (child2, order2) :=
          addPathAndType rest type (freshPTreeNode pathComp type order)
            (order + 1)
        (.mk p ty ord (setAssoc moduleName child2 rq) ac wc cc nc ag, order2)
    | .accessProp propName =>
      match lookupAssoc propName ac with
      | some child =>
        let (child2, order2) := addPathAndType rest type child order
        (.mk p ty ord rq (setAssoc propName child2 ac) wc cc nc ag, order2)
      | none =>
        let (child2, order2) :=
          addPathAndType rest type (freshPTreeNode pathComp type order)
            (order + 1)
        (.mk p ty ord rq (setAssoc propName child2 ac) wc cc nc ag, order2)
    | .writeProp propName =>
      match lookupAssoc propName wc with
      | some child =>
        let (child2, order2) := addPathAndType rest type child order
        (.mk p ty ord rq ac (setAssoc propName child2 wc) cc nc ag, order2)
      | none =>
        let (child2, order2) :=
          addPathAndType rest type (freshPTreeNode pathComp type order)
            (order + 1)
        (.mk p ty ord rq ac (setAssoc propName child2 wc) cc nc ag, order2)
    | .call callId =>
      match lookupAssoc callId cc with
      | some child =>
        let (child2, order2) := addPathAndType rest type child order
        (.mk p ty ord rq ac wc (setAssoc callId child2 cc) nc ag, order2)
      | none =>
        let (child2, order2) :=
          addPathAndType rest type (freshPTreeNode pathComp type order)
            (order + 1)
        (.mk p ty ord rq ac wc (setAssoc callId child2 cc) nc ag, order2)
    | .new callId =>
      match lookupAssoc callId nc with
      | some child =>
        let (child2, order2) := addPathAndType rest type child order
        (.mk p ty ord rq ac wc cc (setAssoc callId child2 nc) ag, order2)
      | none =>
        let (child2, order2) :=
          addPathAndType rest type (freshPTreeNode pathComp type order)
            (order + 1)
        (.mk p ty ord rq ac wc cc (setAssoc callId child2 nc) ag, order2)
    | .arg callId argId =>
      let inner := match lookupAssoc callId ag with
        | some i => i
        | none => []
      match lookupAssoc argId inner with
      | some child =>
        let (child2, order2) := addPathAndType rest type child order
        (.mk p ty ord rq ac wc cc nc
          (setAssoc callId (setAssoc argId child2 inner) ag), order2)
      | none =>
        let (child2, order2) :=
          addPathAndType rest type (freshPTreeNode pathComp type order)
            (order + 1)
        (.mk p ty ord rq ac wc cc nc
          (setAssoc callId (setAssoc argId child2 inner) ag), order2)

/-- findNode walks the path tree along a path, mirroring the child lookups
of `addPathAndType` without creating anything: it returns the node at
which the path ends when every component finds its child. -/
def findNode : PTree → List PathComp → Option PTree
  | t, [] => some t
  | t, pathComp :: rest =>
    match pathComp with
    | .require moduleName =>
      match lookupAssoc moduleName t.requireChildren with
      | some child => findNode child rest
      | none => none
    | .accessProp propName =>
      match lookupAssoc propName t.accessPropChildren with
      | some child => findNode child rest
      | none => none
    | .writeProp propName =>
      match lookupAssoc propName t.writePropChildren with
      | some child => findNode child rest
      | none => none
    | .call callId =>
      match lookupAssoc callId t.callChildren with
      | some child => findNode child rest
      | none => none
    | .new callId =>
      match lookupAssoc callId t.newChildren with
      | some child => findNode child rest
      | none => none
    | .arg callId argId =>
      match lookupAssoc callId t.argChildren with
      | some inner =>
        match lookupAssoc argId inner with
        | some child => findNode child rest
        | none => none
      | none => none

/-- isNull decides JS `v === null`. -/
def JSValue.isNull : JSValue → Bool
  | .vNull => true
  | _ => false

/-- getPathProp embeds reading the reserved property `@@__PATH__@@` of a
value: a tracer mediator answers its access path (the `get` trap of
`getProxy`, `generatemodel.js` lines 689-691); any other value yields
`undefined` (a replay-side synthetic proxy has no such recorded child and
yields `null`); both are falsy, embedded as `none`. -/
def getPathProp : JSValue → Option (List PathComp)
  | .vProxy _ path => some path
  | _ => none

/-- TraceEffect collects what one intercepted `apply` or `construct`
performs: the `(path, type)` pairs recorded with `addPathAndType`, the
pairs appended to `rhoRelations`, the `proxiedArgArray` the handler
builds, the argument array actually handed to the underlying
function/constructor, and the value returned to the client. -/
structure TraceEffect where
  recorded : List (List PathComp × JType)
  rhoAdded : List (List PathComp × List PathComp)
  proxiedArgArray : List JSValue
  passedArgs : List JSValue
  result : JSValue

/-- applyArgsLoop embeds the argument loop of the `apply` trap
(`generatemodel.js` lines 717-731), processing argument `i` onward: record
`arg(callId, i)` with the variance-dispatched type; when the argument is a
non-null object or function, push its mediator onto `proxiedArgArray` and,
when it already carries a `@@__PATH__@@`, append a ρ-relation; otherwise
push the raw argument. -/
def applyArgsLoop (path : List PathComp) (callId : String) (i : Nat) :
    List JSValue →
    List (List PathComp × JType) × List (List PathComp × List PathComp) ×
      List JSValue
  | [] => ([], [], [])
  | a :: rest =>
    let newPath := path ++ [.arg callId i]
    let type := recordedType newPath a
    let (recRest, rhoRest, proxRest) := applyArgsLoop path callId (i + 1) rest
    if (jsTypeof a = "object" ∨ jsTypeof a = "function") ∧ a.isNull = false
    then
      let rhoHere := match getPathProp a with
        | some argPath => [(argPath, newPath)]
        | none => []
      ((newPath, type) :: recRest, rhoHere ++ rhoRest,
        .vProxy a newPath :: proxRest)
    else
      ((newPath, type) :: recRest, rhoRest, a :: proxRest)

/-- constructArgsLoop embeds the argument loop of the `construct` trap
(`generatemodel.js` lines 751-766).  It differs from `applyArgsLoop` in
its wrap condition: only `typeof argArray[i] === 'object'` (functions are
not wrapped here). -/
def constructArgsLoop (path : List PathComp) (callId : String) (i : Nat) :
    List JSValue →
    List (List PathComp × JType) × List (List PathComp × List PathComp) ×
      List JSValue
  | [] => ([], [], [])
  | a :: rest =>
    let newPath := path ++ [.arg callId i]
    let type := recordedType newPath a
    let (recRest, rhoRest, proxRest) :=
      constructArgsLoop path callId (i + 1) rest
    if jsTypeof a = "object" ∧ a.isNull = false then
      let rhoHere := match getPathProp a with
        | some argPath => [(argPath, newPath)]
        | none => []
      ((newPath, type) :: recRest, rhoHere ++ rhoRest,
        .vProxy a newPath :: proxRest)
    else
      ((newPath, type) :: recRest, rhoRest, a :: proxRest)

/-- applyHandler embeds the `apply` trap of `getProxy`
(`generatemodel.js` lines 714-746) for the mediator at `path`, given the
fresh `callId` and the outcome `callResult` of
`target.apply(thisArg, proxiedArgArray)`: the target is invoked with the
wrapped-argument array (`passedArgs := proxiedArgArray`); the terminal
`call(callId)` component is recorded; a result that is a non-null object
already carrying a `@@__PATH__@@` is returned unchanged, otherwise a
result recorded as `object` or `function` is wrapped, and any other result
is returned raw. -/
def applyHandler (path : List PathComp) (callId : String)
    (argArray : List JSValue) (callResult : JSValue) : TraceEffect :=
  let (recArgs, rhoArgs, proxiedArgArray) := applyArgsLoop path callId 0
    argArray
  let newPath := path ++ [.call callId]
  let type := recordedType newPath callResult
  let returned :=
    if callResult.isNull = false ∧ jsTypeof callResult = "object" ∧
        (getPathProp callResult).isSome then callResult
    else if type = .tag "object" ∨ type = .tag "function" then
      .vProxy callResult newPath
    else callResult
  { recorded := recArgs ++ [(newPath, type)]
    rhoAdded := rhoArgs
    proxiedArgArray := proxiedArgArray
    passedArgs := proxiedArgArray
    result := returned }

/-- constructHandler embeds the `construct` trap of `getProxy`
(`generatemodel.js` lines 748-772) for the mediator at `path`, given the
fresh `callId` and the outcome `ctorResult` of the construction: the
argument loop builds `proxiedArgArray` exactly as on the apply side
(modulo its object-only wrap condition), but the construction on line 767
is `Reflect.construct(target, argArray)` — the raw `argArray` is passed
and `proxiedArgArray` is never used; the terminal `new(callId)` component
is recorded and the result is unconditionally wrapped. -/
def constructHandler (path : List PathComp) (callId : String)
    (argArray : List JSValue) (ctorResult : JSValue) : TraceEffect :=
  let (recArgs, rhoArgs, proxiedArgArray) := constructArgsLoop path callId 0
    argArray
  let newPath := path ++ [.new callId]
  let type := recordedType newPath ctorResult
  { recorded := recArgs ++ [(newPath, type)]
    rhoAdded := rhoArgs
    proxiedArgArray := proxiedArgArray
    passedArgs := argArray
    result := .vProxy ctorResult newPath }

/-- jsForOfPlainObject embeds the statement `for (let k of obj)` where
`obj` is a plain JS object (an object literal such as the `callChildren`
collections of the path tree).  A plain object has no `Symbol.iterator`,
so `for...of` raises `TypeError: obj is not iterable` before any
iteration — even when the object is empty.  The `Empty` result type
records that the statement can never complete normally. -/
def jsForOfPlainObject (_obj : List (String × α)) : Except JsError Empty :=
  .error (.typeError "object is not iterable")

/-- computeTreeHash embeds `computeTreeHash` from `generatemodel.js`
(lines 782-828).  Its first loop is
`for (let k of currentNode.callChildren)` — a `for...of` over the plain
object `callChildren` — so the function raises a TypeError on every node
before computing anything; the hash-map construction, the `_hash` /
`_hashMap` / `_prefixInRhoRelations` assignments and the recursive calls
further down are unreachable. -/
def computeTreeHash (currentNode : PTree)
    (_accumulatedPath : List PathComp) : Except JsError Unit :=
  match jsForOfPlainObject currentNode.callChildren with
  | .error e => .error e
  | .ok ev => nomatch ev

/-- tryRemovePaths embeds `tryRemovePaths` from `generatemodel.js` (lines
851-867).  Its outer loop is `l1: for (let k1 of currentNode.callChildren)`
— again `for...of` over a plain object — so the function raises a
TypeError on every node; the hash comparison, the ρ-participation guard,
the `delete` and the `updateTreeHash` call are unreachable.  On a normal
completion the source would return the boolean `removed` after mutating
the node in place, embedded here as the (never produced) pair of updated
node and flag. -/
def tryRemovePaths (currentNode : PTree) :
    Except JsError (PTree × Bool) :=
  match jsForOfPlainObject currentNode.callChildren with
  | .error e => .error e
  | .ok ev => nomatch ev

mutual

/-- recursivelyRemovePaths embeds `recursivelyRemovePaths` from
`generatemodel.js` (lines 880-898): call `tryRemovePaths` on the node
once and, only when it removed nothing (`false`, in which case the node is
unchanged), recurse into the `call`, `new`, `accessProp`, `writeProp` and
`arg` child collections with `for...in` loops (these loops are correct JS;
the inner `arg` collections are passed to the recursion as if they were
nodes, which would itself raise a TypeError on a nonempty collection).
When `tryRemovePaths` removed something it returns `true` and the
function returns without recursing.  A TypeError raised by
`tryRemovePaths` propagates. -/
def recursivelyRemovePaths : PTree → Except JsError PTree
  | .mk p ty ord rq ac wc cc nc ag =>
    match tryRemovePaths (.mk p ty ord rq ac wc cc nc ag) with
    | .error e => .error e
    | .ok (_, true) => .ok (.mk p ty ord rq ac wc cc nc ag)
    | .ok (_, false) =>
      match recRemChildList cc with
      | .error e => .error e
      | .ok cc2 =>
        match recRemChildList nc with
        | .error e => .error e
        | .ok nc2 =>
          match recRemChildList ac with
          | .error e => .error e
          | .ok ac2 =>
            match recRemChildList wc with
            | .error e => .error e
            | .ok wc2 =>
              match recRemArgList ag with
              | .error e => .error e
              | .ok ag2 => .ok (.mk p ty ord rq ac2 wc2 cc2 nc2 ag2)

/-- recRemChildList is the `for (let k in collection)` recursion of
`recursivelyRemovePaths` over one string-keyed child collection. -/
def recRemChildList : List (String × PTree) →
    Except JsError (List (String × PTree))
  | [] => .ok []
  | (k, child) :: rest =>
    match recursivelyRemovePaths child with
    | .error e => .error e
    | .ok child2 =>
      match recRemChildList rest with
      | .error e => .error e
      | .ok rest2 => .ok ((k, child2) :: rest2)

/-- recRemArgList is the `for (let k in currentNode.argChildren)` loop of
`recursivelyRemovePaths`: each iteration passes the inner
`argId → node` object — which is not a tree node and has no
`callChildren` — to `recursivelyRemovePaths`, whose `tryRemovePaths`
then evaluates `for (let k1 of undefined)` and raises a TypeError. -/
def recRemArgList : List (String × List (Nat × PTree)) →
    Except JsError (List (String × List (Nat × PTree)))
  | [] => .ok []
  | _ :: _ => .error (.typeError "undefined is not iterable")

end

/-- arrowPred is the predicate `isCovariant` counts: the component's
`compType` is `'arg'` or `'writeProp'`. -/
def arrowPred (pathComp : PathComp) : Bool :=
  pathComp.compType = "arg" ∨ pathComp.compType = "writeProp"

theorem isCovariant_foldl_eq (path : List PathComp) : ∀ n : Nat,
    path.foldl
      (fun arrowCount pathComp =>
        if pathComp.compType = "arg" ∨ pathComp.compType = "writeProp" then
          arrowCount + 1
        else arrowCount)
      n = n + path.countP arrowPred := by
  induction path with
  | nil => simp
  | cons c rest ih =>
    intro n
    by_cases h : c.compType = "arg" ∨ c.compType = "writeProp"
    · simp only [List.foldl_cons, List.countP_cons, if_pos h, ih,
        arrowPred, h]
      simp
      omega
    · simp only [List.foldl_cons, List.countP_cons, if_neg h, ih,
        arrowPred]
      simp [h]

/-- C9: `isCovariant(path)` returns `true` exactly when the number of
components of `path` whose `compType` is `'arg'` or `'writeProp'` is even,
and `false` exactly when that count is odd. -/
theorem c9_isCovariant_parity : ∀ path : List PathComp,
    (isCovariant path = true ↔ Even (path.countP arrowPred))
    ∧ (isCovariant path = false ↔ ¬ Even (path.countP arrowPred)) := by
  intro path
  have h : isCovariant path = decide (path.countP arrowPred % 2 = 0) := by
    simp only [isCovariant, isCovariant_foldl_eq, Nat.zero_add]
  constructor
  · rw [h]
    simp [Nat.even_iff]
  · rw [h]
    simp [Nat.even_iff]

/-- C1: the tracer's recording sites use
`isCovariant(newPath) ? getType(v) : getArgumentType(v)`, which records
the refined literal tag on a contravariant path and the bare primitive
tag on a covariant path — the opposite polarity of the claim (and of the
doc comments of `getType` / `getArgumentType` in `src/lib/utils.js`).
Evaluated here at the primitive number 3: the contravariant argument path
`require·accessProp·arg` records `{primType: 'number', value: 3}` and the
covariant path `require·accessProp·arg·call·arg` records the bare
`'number'`. -/
theorem c1_primitive_refinement_swapped :
    recordedType [.require "m", .accessProp "f", .arg "c1" 0]
        (.vNum (.finite 3))
      = .prim "number" (.num (.finite 3))
    ∧ recordedType
        [.require "m", .accessProp "f", .arg "c1" 0, .call "c1",
          .arg "c2" 0] (.vNum (.finite 3))
      = .tag "number"
    ∧ isCovariant [.require "m", .accessProp "f", .arg "c1" 0] = false
    ∧ isCovariant
        [.require "m", .accessProp "f", .arg "c1" 0, .call "c1",
          .arg "c2" 0] = true := by
  refine ⟨rfl, rfl, rfl, rfl⟩

/-- C7: when the library invocation performed by a `call` or `new` handler
raises an exception, the catch block swallows it (the embedded handler is
total and returns normally, so the driver's `findNextNode` loop
continues), the node is marked processed, and every other field — in
particular the unset `obj` — is left untouched; no warning is emitted. -/
theorem c7_call_new_exception_swallowed :
    ∀ (p : Option PathComp) (ty : Option JType) (ord : Nat) (pr em : Bool)
      (obj : Option JSValue) (cs : List MNode) (ap : List PathComp)
      (e : JsError),
    callNodeTry (.mk p ty ord pr em obj cs ap) (.error e)
        = (.mk p ty ord true em obj cs ap, [])
    ∧ newNodeTry (.mk p ty ord pr em obj cs ap) (.error e)
        = (.mk p ty ord true em obj cs ap, []) := by
  intros
  exact ⟨rfl, rfl⟩

/-- C8: the serializer's replacer turns the traced `+Infinity` literal tag
into `{primType: 'number', value: 'Infinity'}` and the traced NaN literal
tag into `{primType: 'number', value: 'NaN'}`, and `synthesizeValue`
decodes those sentinels back to `Number.POSITIVE_INFINITY` and `NaN` on
any node carrying them, so serializing a traced `+Infinity` / NaN literal
and then synthesizing it yields the original number. -/
theorem c8_sentinel_round_trip :
    ∀ (p : Option PathComp) (ord : Nat) (pr em : Bool)
      (obj : Option JSValue) (cs : List MNode) (ap : List PathComp),
    serializeType (getArgumentType (.vNum .posInf))
      = .prim "number" (.str "Infinity")
    ∧ serializeType (getArgumentType (.vNum .nan))
      = .prim "number" (.str "NaN")
    ∧ synthesizeValue
        (.mk p (some (.prim "number" (.str "Infinity"))) ord pr em obj cs
          ap) = .ok (.vNum .posInf)
    ∧ synthesizeValue
        (.mk p (some (.prim "number" (.str "NaN"))) ord pr em obj cs ap)
      = .ok (.vNum .nan)
    ∧ synthesizeValue
        (.mk p (some (serializeType (getArgumentType (.vNum .posInf))))
          ord pr em obj cs ap) = .ok (.vNum .posInf)
    ∧ synthesizeValue
        (.mk p (some (serializeType (getArgumentType (.vNum .nan)))) ord
          pr em obj cs ap) = .ok (.vNum .nan) := by
  intros
  refine ⟨rfl, rfl, rfl, rfl, rfl, rfl⟩

/-- C4: the compression pass can never establish the claimed sibling-hash
invariant because it never completes: `computeTreeHash` and
`tryRemovePaths` iterate the plain-object child collections with
`for...of`, which raises `TypeError` on every node (a plain object is not
iterable), and `recursivelyRemovePaths` propagates that exception — for
every path tree, including the tree the program always starts from. -/
theorem c4_compression_throws :
    ∀ (currentNode : PTree) (accumulatedPath : List PathComp),
    computeTreeHash currentNode accumulatedPath
        = .error (.typeError "object is not iterable")
    ∧ tryRemovePaths currentNode
        = .error (.typeError "object is not iterable")
    ∧ recursivelyRemovePaths currentNode
        = .error (.typeError "object is not iterable") := by
  intro currentNode accumulatedPath
  refine ⟨rfl, rfl, ?_⟩
  cases currentNode
  rfl

/-- C5: on an intercepted constructor invocation with one plain-object
argument, the handler records `arg(callId, 0)` and the terminal
`new(callId)`, builds the mediator array `proxiedArgArray`, and wraps the
constructor's result — but line 767 invokes
`Reflect.construct(target, argArray)` with the raw argument array, so the
object argument is not replaced by its mediator in the array passed to
the underlying constructor (`passedArgs` differs from `proxiedArgArray`),
unlike the apply side, which passes the mediator array. -/
theorem c5_construct_passes_raw_args :
    (constructHandler [.require "m"] "c1" [.vObject] .vObject).passedArgs
      = [.vObject]
    ∧ (constructHandler [.require "m"] "c1" [.vObject]
        .vObject).proxiedArgArray
      = [.vProxy .vObject [.require "m", .arg "c1" 0]]
    ∧ (constructHandler [.require "m"] "c1" [.vObject] .vObject).passedArgs
      ≠ (constructHandler [.require "m"] "c1" [.vObject]
        .vObject).proxiedArgArray
    ∧ (constructHandler [.require "m"] "c1" [.vObject] .vObject).recorded
      = [([.require "m", .arg "c1" 0], .tag "object"),
        ([.require "m", .new "c1"], .tag "object")]
    ∧ (constructHandler [.require "m"] "c1" [.vObject] .vObject).result
      = .vProxy .vObject [.require "m", .new "c1"]
    ∧ (applyHandler [.require "m"] "c1" [.vObject] .vObject).passedArgs
      = [.vProxy .vObject [.require "m", .arg "c1" 0]] := by
  refine ⟨rfl, rfl, ?_, rfl, rfl, rfl⟩
  intro h
  simp [constructHandler, constructArgsLoop, jsTypeof, JSValue.isNull,
    getPathProp, recordedType, isCovariant, getType, getArgumentType] at h

/-- C2 counterexample: `checkCompatible` accepts an actual type that is
not structurally equal to the required type (and the required type is
neither `null` nor `'object'`): the fresh literal tag for the number
`+Infinity` against the model's serialized literal tag
`{primType: 'number', value: 'Infinity'}`, accepted because `deep-equal`
in its default loose mode compares the values with JS `==`, and
`Infinity == 'Infinity'` holds by ToNumber conversion. -/
theorem c2_counterexample_loose_accepts :
    checkCompatible (.prim "number" (.num .posInf))
        (.prim "number" (.str "Infinity")) = true
    ∧ JType.prim "number" (.num .posInf)
        ≠ JType.prim "number" (.str "Infinity")
    ∧ JType.prim "number" (.str "Infinity") ≠ JType.jnull
    ∧ JType.prim "number" (.str "Infinity") ≠ JType.tag "object" := by
  refine ⟨by decide, by decide, by decide, by decide⟩

theorem jsStrictEq_le_deepEqual :
    ∀ x y : JType, jsStrictEqJType x y = true → deepEqualJType x y = true := by
  intro x y h
  cases x <;> cases y <;> simp_all [jsStrictEqJType, deepEqualJType]

/-- C2 amended: `checkCompatible(actual, required)` returns `true` iff
`required` is `null`, or `required` is `'object'` and `actual` is one of
`'object'`, `'function'`, `'map'`, `'set'`, or `required` and `actual` are
equal under the `deep-equal` package's default loose comparison — which
compares literal values with JS `==`, so a NaN literal never matches
anything (itself included) while a number literal matches its
numeric-string spelling (the serialized `'Infinity'` sentinel in
particular); in every other case it returns `false`, and
`actual = 'array'` with `required = 'object'` is still rejected. -/
theorem c2_amended_checkCompatible : ∀ type1 type2 : JType,
    (checkCompatible type1 type2 = true ↔
      type2 = .jnull
      ∨ (type2 = .tag "object" ∧
          (type1 = .tag "object" ∨ type1 = .tag "function" ∨
            type1 = .tag "map" ∨ type1 = .tag "set"))
      ∨ deepEqualJType type2 type1 = true)
    ∧ checkCompatible (.tag "array") (.tag "object") = false
    ∧ checkCompatible (.prim "number" (.num .nan))
        (.prim "number" (.num .nan)) = false
    ∧ checkCompatible (.prim "number" (.num .posInf))
        (.prim "number" (.str "Infinity")) = true := by
  intro type1 type2
  refine ⟨?_, by decide, by decide, by decide⟩
  unfold checkCompatible
  split_ifs with h1 h2 h3 h4
  · exact iff_of_true rfl (Or.inl h1)
  · exact iff_of_true rfl (Or.inr (Or.inl h2))
  · exact iff_of_true rfl
      (Or.inr (Or.inr (jsStrictEq_le_deepEqual _ _ h3)))
  · exact iff_of_true rfl (Or.inr (Or.inr h4))
  · refine iff_of_false (by simp) ?_
    rintro (h | h | h)
    · exact h1 h
    · exact h2 h
    · exact h4 h

/-- C10: a model node whose recorded type is a bare string tag outside the
set handled by `synthesizeValue` (such as `'error'`) makes
`synthesizeValue` throw `Error('Cannot synthesize the value, type: ...')`,
and when such a node is reached unprocessed as a `writeProp` node (with a
live parent object) or as an `arg` node without ρ input, the handler
propagates the exception uncaught, aborting the replay. -/
theorem c10_unknown_tag_aborts :
    ∀ (node : MNode) (s : String) (o : JSValue),
    node.type = some (.tag s) →
    s ∉ (["undefined", "null", "object", "array", "set", "map", "boolean",
      "number", "string", "function"] : List String) →
    node.processed = false →
    synthesizeValue node
        = .error (.jsError ("Cannot synthesize the value, type: " ++ s))
    ∧ writePropStep node false (some o)
        = .error (.jsError ("Cannot synthesize the value, type: " ++ s))
    ∧ argStep node none
        = .error (.jsError ("Cannot synthesize the value, type: " ++ s)) := by
  intro node s o hty hmem hpr
  simp only [List.mem_cons, List.not_mem_nil, or_false, not_or] at hmem
  obtain ⟨hs1, hs2, hs3, hs4, hs5, hs6, hs7, hs8, hs9, hs10⟩ := hmem
  have hsyn : synthesizeValue node
      = .error (.jsError ("Cannot synthesize the value, type: " ++ s)) := by
    simp [synthesizeValue, hty, JType.tag.injEq, hs1, hs2, hs3, hs4, hs5,
      hs6, hs7, hs8, hs9, hs10]
  refine ⟨hsyn, ?_, ?_⟩
  · simp [writePropStep, hpr, hsyn, Bind.bind, Except.bind]
  · simp [argStep, hpr, hsyn, Bind.bind, Except.bind]

theorem setAssoc_self [DecidableEq κ] (k : κ) (v : α) :
    ∀ l : List (κ × α), lookupAssoc k l = some v → setAssoc k v l = l := by
  intro l
  induction l with
  | nil => simp [lookupAssoc]
  | cons kv rest ih =>
    obtain ⟨k1, v1⟩ := kv
    by_cases h : k1 = k
    · simp only [lookupAssoc, setAssoc, if_pos h, Option.some.injEq]
      intro hv
      simp [hv]
    · simp only [lookupAssoc, setAssoc, if_neg h]
      intro hv
      simp [ih hv]

theorem lookupAssoc_setAssoc [DecidableEq κ] (k : κ) (v : α) :
    ∀ l : List (κ × α), lookupAssoc k (setAssoc k v l) = some v := by
  intro l
  induction l with
  | nil => simp [lookupAssoc, setAssoc]
  | cons kv rest ih =>
    obtain ⟨k1, v1⟩ := kv
    by_cases h : k1 = k
    · simp [lookupAssoc, setAssoc, h]
    · simp [lookupAssoc, setAssoc, h, ih]

theorem addPathAndType_of_findNode_isSome :
    ∀ (path : List PathComp) (type : JType) (t : PTree) (order : Nat),
    (findNode t path).isSome → addPathAndType path type t order = (t, order) := by
  intro path
  induction path with
  | nil =>
    intro type t order _
    rfl
  | cons pathComp rest ih =>
    intro type t order h
    obtain ⟨p0, ty0, ord0, rq, ac, wc, cc, nc, ag⟩ := t
    cases pathComp with
    | require moduleName =>
      cases hlk : lookupAssoc moduleName rq with
      | none =>
        rw [findNode] at h
        simp [PTree.requireChildren, hlk] at h
      | some child =>
        rw [findNode] at h
        simp only [PTree.requireChildren, hlk] at h
        simp [addPathAndType, hlk, ih type child order h,
          setAssoc_self _ _ _ hlk]
    | accessProp propName =>
      cases hlk : lookupAssoc propName ac with
      | none =>
        rw [findNode] at h
        simp [PTree.accessPropChildren, hlk] at h
      | some child =>
        rw [findNode] at h
        simp only [PTree.accessPropChildren, hlk] at h
        simp [addPathAndType, hlk, ih type child order h,
          setAssoc_self _ _ _ hlk]
    | writeProp propName =>
      cases hlk : lookupAssoc propName wc with
      | none =>
        rw [findNode] at h
        simp [PTree.writePropChildren, hlk] at h
      | some child =>
        rw [findNode] at h
        simp only [PTree.writePropChildren, hlk] at h
        simp [addPathAndType, hlk, ih type child order h,
          setAssoc_self _ _ _ hlk]
    | call callId =>
      cases hlk : lookupAssoc callId cc with
      | none =>
        rw [findNode] at h
        simp [PTree.callChildren, hlk] at h
      | some child =>
        rw [findNode] at h
        simp only [PTree.callChildren, hlk] at h
        simp [addPathAndType, hlk, ih type child order h,
          setAssoc_self _ _ _ hlk]
    | new callId =>
      cases hlk : lookupAssoc callId nc with
      | none =>
        rw [findNode] at h
        simp [PTree.newChildren, hlk] at h
      | some child =>
        rw [findNode] at h
        simp only [PTree.newChildren, hlk] at h
        simp [addPathAndType, hlk, ih type child order h,
          setAssoc_self _ _ _ hlk]
    | arg callId argId =>
      cases hlk : lookupAssoc callId ag with
      | none =>
        rw [findNode] at h
        simp [PTree.argChildren, hlk] at h
      | some inner =>
        cases hlk2 : lookupAssoc argId inner with
        | none =>
          rw [findNode] at h
          simp [PTree.argChildren, hlk, hlk2] at h
        | some child =>
          rw [findNode] at h
          simp only [PTree.argChildren, hlk, hlk2] at h
          simp [addPathAndType, hlk, hlk2, ih type child order h,
            setAssoc_self _ _ _ hlk2, setAssoc_self _ _ _ hlk]

theorem findNode_addPathAndType_isSome :
    ∀ (path : List PathComp) (type : JType) (t : PTree) (order : Nat),
    (findNode (addPathAndType path type t order).1 path).isSome := by
  intro path
  induction path with
  | nil =>
    intro type t order
    rfl
  | cons pathComp rest ih =>
    intro type t order
    obtain ⟨p0, ty0, ord0, rq, ac, wc, cc, nc, ag⟩ := t
    cases pathComp with
    | require moduleName =>
      cases hlk : lookupAssoc moduleName rq with
      | none =>
        rw [addPathAndType]
        simp only [hlk, findNode, PTree.requireChildren,
          lookupAssoc_setAssoc]
        exact ih type _ _
      | some child =>
        rw [addPathAndType]
        simp only [hlk, findNode, PTree.requireChildren,
          lookupAssoc_setAssoc]
        exact ih type child order
    | accessProp propName =>
      cases hlk : lookupAssoc propName ac with
      | none =>
        rw [addPathAndType]
        simp only [hlk, findNode, PTree.accessPropChildren,
          lookupAssoc_setAssoc]
        exact ih type _ _
      | some child =>
        rw [addPathAndType]
        simp only [hlk, findNode, PTree.accessPropChildren,
          lookupAssoc_setAssoc]
        exact ih type child order
    | writeProp propName =>
      cases hlk : lookupAssoc propName wc with
      | none =>
        rw [addPathAndType]
        simp only [hlk, findNode, PTree.writePropChildren,
          lookupAssoc_setAssoc]
        exact ih type _ _
      | some child =>
        rw [addPathAndType]
        simp only [hlk, findNode, PTree.writePropChildren,
          lookupAssoc_setAssoc]
        exact ih type child order
    | call callId =>
      cases hlk : lookupAssoc callId cc with
      | none =>
        rw [addPathAndType]
        simp only [hlk, findNode, PTree.callChildren, lookupAssoc_setAssoc]
        exact ih type _ _
      | some child =>
        rw [addPathAndType]
        simp only [hlk, findNode, PTree.callChildren, lookupAssoc_setAssoc]
        exact ih type child order
    | new callId =>
      cases hlk : lookupAssoc callId nc with
      | none =>
        rw [addPathAndType]
        simp only [hlk, findNode, PTree.newChildren, lookupAssoc_setAssoc]
        exact ih type _ _
      | some child =>
        rw [addPathAndType]
        simp only [hlk, findNode, PTree.newChildren, lookupAssoc_setAssoc]
        exact ih type child order
    | arg callId argId =>
      cases hlk : lookupAssoc callId ag with
      | none =>
        rw [addPathAndType]
        simp only [hlk, lookupAssoc, findNode, PTree.argChildren,
          lookupAssoc_setAssoc]
        exact ih type _ _
      | some inner =>
        cases hlk2 : lookupAssoc argId inner with
        | none =>
          rw [addPathAndType]
          simp only [hlk, hlk2, lookupAssoc, findNode, PTree.argChildren,
            lookupAssoc_setAssoc]
          exact ih type _ _
        | some child =>
          rw [addPathAndType]
          simp only [hlk, hlk2, lookupAssoc, findNode, PTree.argChildren,
            lookupAssoc_setAssoc]
          exact ih type child order

/-- C6: path insertion is idempotent and first-observation-wins — when the
terminal node of `path` already exists, `addPathAndType(path, t)` leaves
the whole tree (every stored type and order on the path included) and the
global order counter unchanged, for any `t`, including a `t` different
from the recorded type; and inserting any path twice in a row gives the
same tree and counter as inserting it once. -/
theorem c6_addPathAndType_first_observation_wins :
    ∀ (path : List PathComp) (type : JType) (t : PTree) (order : Nat),
    ((findNode t path).isSome →
      addPathAndType path type t order = (t, order))
    ∧ addPathAndType path type (addPathAndType path type t order).1
        (addPathAndType path type t order).2
      = addPathAndType path type t order := by
  intro path type t order
  refine ⟨addPathAndType_of_findNode_isSome path type t order, ?_⟩
  rw [addPathAndType_of_findNode_isSome path type
    (addPathAndType path type t order).1
    (addPathAndType path type t order).2
    (findNode_addPathAndType_isSome path type t order)]

theorem sizeOf_children_lt (c : MNode) : sizeOf c.children < sizeOf c := by
  cases c with
  | mk p ty ord pr em obj cs ap =>
    simp [MNode.children]
    omega

theorem allNodes_cons (c : MNode) (rest : List MNode) :
    allNodes (c :: rest) = c :: (allNodes c.children ++ allNodes rest) := by
  cases c
  simp only [allNodes, MNode.children]

theorem findNextNode_eq (t : MNode) :
    findNextNode t = fnnChildren t.children none := by
  cases t
  simp only [findNextNode, MNode.children]

theorem fnnChildren_sound (cs : List MNode) :
    ∀ (acc : Option MNode) (m : MNode), fnnChildren cs acc = some m →
    acc = some m ∨ (m ∈ allNodes cs ∧ m.processed = false) := by
  match cs with
  | [] =>
    intro acc m h
    simp only [fnnChildren] at h
    exact Or.inl h
  | c :: rest =>
    intro acc m h
    simp only [fnnChildren] at h
    by_cases hpr : c.processed = false
    · rw [if_pos hpr] at h
      cases acc with
      | none =>
        rcases fnnChildren_sound rest (some c) m h with h1 | h1
        · injection h1 with h1
          subst h1
          exact Or.inr ⟨by simp [allNodes_cons], hpr⟩
        · exact Or.inr ⟨by simp [allNodes_cons, h1.1], h1.2⟩
      | some m0 =>
        rcases fnnChildren_sound rest _ m h with h1 | h1
        · injection h1 with h1
          by_cases hlt : c.order < m0.order
          · rw [if_pos hlt] at h1
            subst h1
            exact Or.inr ⟨by simp [allNodes_cons], hpr⟩
          · rw [if_neg hlt] at h1
            subst h1
            exact Or.inl rfl
        · exact Or.inr ⟨by simp [allNodes_cons, h1.1], h1.2⟩
    · rw [if_neg hpr] at h
      cases hfc : findNextNode c with
      | none =>
        rw [hfc] at h
        rcases fnnChildren_sound rest acc m h with h1 | h1
        · exact Or.inl h1
        · exact Or.inr ⟨by simp [allNodes_cons, h1.1], h1.2⟩
      | some fm =>
        rw [hfc] at h
        have hfm : fm ∈ allNodes c.children ∧ fm.processed = false := by
          rw [findNextNode_eq] at hfc
          rcases fnnChildren_sound c.children none fm hfc with h2 | h2
          · exact absurd h2 (by simp)
          · exact h2
        cases acc with
        | none =>
          rcases fnnChildren_sound rest none m h with h1 | h1
          · exact absurd h1 (by simp)
          · exact Or.inr ⟨by simp [allNodes_cons, h1.1], h1.2⟩
        | some mn =>
          rcases fnnChildren_sound rest _ m h with h1 | h1
          · injection h1 with h1
            by_cases hlt : fm.order < mn.order
            · rw [if_pos hlt] at h1
              subst h1
              exact Or.inr ⟨by simp [allNodes_cons, hfm.1], hfm.2⟩
            · rw [if_neg hlt] at h1
              subst h1
              exact Or.inl rfl
          · exact Or.inr ⟨by simp [allNodes_cons, h1.1], h1.2⟩
termination_by sizeOf cs
decreasing_by
  all_goals simp_wf
  all_goals first
    | omega
    | (have hcc := sizeOf_children_lt c
       omega)

theorem fnnChildren_some_of_acc_some (cs : List MNode) :
    ∀ a : MNode, fnnChildren cs (some a) ≠ none := by
  induction cs with
  | nil =>
    intro a
    simp [fnnChildren]
  | cons c rest ih =>
    intro a
    simp only [fnnChildren]
    by_cases hpr : c.processed = false
    · rw [if_pos hpr]
      exact ih _
    · rw [if_neg hpr]
      cases hfc : findNextNode c with
      | none => exact ih a
      | some fm => exact ih _

theorem fnnChildren_some_of_unproc (cs : List MNode) :
    ∀ (acc : Option MNode) (c : MNode), c ∈ cs → c.processed = false →
    fnnChildren cs acc ≠ none := by
  induction cs with
  | nil =>
    intro acc c hc
    exact absurd hc (List.not_mem_nil c)
  | cons c0 rest ih =>
    intro acc c hc hcp
    simp only [fnnChildren]
    rcases List.mem_cons.mp hc with hhd | htl
    · subst hhd
      rw [if_pos hcp]
      cases acc with
      | none => exact fnnChildren_some_of_acc_some rest _
      | some m0 => exact fnnChildren_some_of_acc_some rest _
    · by_cases hpr : c0.processed = false
      · rw [if_pos hpr]
        cases acc with
        | none => exact fnnChildren_some_of_acc_some rest _
        | some m0 => exact fnnChildren_some_of_acc_some rest _
      · rw [if_neg hpr]
        cases hfc : findNextNode c0 with
        | none => exact ih acc c htl hcp
        | some fm =>
          cases acc with
          | none => exact ih none c htl hcp
          | some mn => exact fnnChildren_some_of_acc_some rest _

theorem fnnChildren_min (cs : List MNode) :
    ∀ (acc : Option MNode) (m : MNode), fnnChildren cs acc = some m →
    (∀ a, acc = some a → m.order ≤ a.order)
    ∧ (∀ c ∈ cs, c.processed = false → m.order ≤ c.order) := by
  induction cs with
  | nil =>
    intro acc m h
    simp only [fnnChildren] at h
    subst h
    refine ⟨?_, ?_⟩
    · intro a ha
      injection ha with ha
      subst ha
      exact le_refl _
    · intro c hc
      exact absurd hc (List.not_mem_nil c)
  | cons c0 rest ih =>
    intro acc m h
    simp only [fnnChildren] at h
    by_cases hpr : c0.processed = false
    · rw [if_pos hpr] at h
      cases acc with
      | none =>
        obtain ⟨ha, hrest⟩ := ih (some c0) m h
        have hc0 : m.order ≤ c0.order := ha c0 rfl
        refine ⟨by simp, ?_⟩
        intro c hc hcp
        rcases List.mem_cons.mp hc with hhd | htl
        · subst hhd
          exact hc0
        · exact hrest c htl hcp
      | some m0 =>
        obtain ⟨ha, hrest⟩ := ih _ m h
        have hd : m.order ≤ (if c0.order < m0.order then c0 else m0).order :=
          ha _ rfl
        have hd1 : (if c0.order < m0.order then c0 else m0).order ≤ c0.order := by
          by_cases hlt : c0.order < m0.order
          · rw [if_pos hlt]
          · rw [if_neg hlt]
            omega
        have hd2 : (if c0.order < m0.order then c0 else m0).order ≤ m0.order := by
          by_cases hlt : c0.order < m0.order
          · rw [if_pos hlt]
            omega
          · rw [if_neg hlt]
        refine ⟨?_, ?_⟩
        · intro a ha2
          injection ha2 with ha2
          subst ha2
          omega
        · intro c hc hcp
          rcases List.mem_cons.mp hc with hhd | htl
          · subst hhd
            omega
          · exact hrest c htl hcp
    · rw [if_neg hpr] at h
      cases hfc : findNextNode c0 with
      | none =>
        rw [hfc] at h
        obtain ⟨ha, hrest⟩ := ih acc m h
        refine ⟨ha, ?_⟩
        intro c hc hcp
        rcases List.mem_cons.mp hc with hhd | htl
        · subst hhd
          exact absurd hcp hpr
        · exact hrest c htl hcp
      | some fm =>
        rw [hfc] at h
        cases acc with
        | none =>
          obtain ⟨_, hrest⟩ := ih none m h
          refine ⟨by simp, ?_⟩
          intro c hc hcp
          rcases List.mem_cons.mp hc with hhd | htl
          · subst hhd
            exact absurd hcp hpr
          · exact hrest c htl hcp
        | some mn =>
          obtain ⟨ha, hrest⟩ := ih _ m h
          have hd : m.order ≤ (if fm.order < mn.order then fm else mn).order :=
            ha _ rfl
          have hd2 : (if fm.order < mn.order then fm else mn).order ≤ mn.order := by
            by_cases hlt : fm.order < mn.order
            · rw [if_pos hlt]
              omega
            · rw [if_neg hlt]
          refine ⟨?_, ?_⟩
          · intro a ha2
            injection ha2 with ha2
            subst ha2
            omega
          · intro c hc hcp
            rcases List.mem_cons.mp hc with hhd | htl
            · subst hhd
              exact absurd hcp hpr
            · exact hrest c htl hcp

/-- C3 counterexample: on a node whose only child is processed but has an
unprocessed grandchild, `findNextNode` returns `undefined` even though an
unprocessed descendant exists — the recursive result found under a
processed child is adopted only when `minNode` is already set
(`minNode !== undefined && m.order < minNode.order`), so with no
unprocessed direct child it is dropped. -/
theorem c3_counterexample :
    (MNode.mk none none 2 false false none [] [])
        ∈ allNodes (MNode.mk none none 0 true false none
          [.mk none none 1 true false none
            [.mk none none 2 false false none [] []] []] []).children
    ∧ (MNode.mk none none 2 false false none [] []).processed = false
    ∧ findNextNode (MNode.mk none none 0 true false none
        [.mk none none 1 true false none
          [.mk none none 2 false false none [] []] []] []) = none := by
  refine ⟨?_, rfl, ?_⟩
  · simp [MNode.children, allNodes]
  · simp [findNextNode, fnnChildren, MNode.processed, MNode.order]

/-- C3 amended: `findNextNode` returns only unprocessed descendants of the
node; it returns one whenever the node has at least one unprocessed
direct child, and the returned node's order is then no larger than the
order of any unprocessed direct child; but when every direct child is
processed it can return `undefined` even though deeper unprocessed
descendants exist (results found inside processed subtrees are adopted
only when an unprocessed child was already seen), in which case the
driver stops traversing that subtree. -/
theorem c3_amended_findNextNode : ∀ t : MNode,
    (∀ m, findNextNode t = some m →
      m ∈ allNodes t.children ∧ m.processed = false)
    ∧ ((∃ c ∈ t.children, c.processed = false) → findNextNode t ≠ none)
    ∧ (∀ m c, findNextNode t = some m → c ∈ t.children →
        c.processed = false → m.order ≤ c.order) := by
  intro t
  rw [findNextNode_eq]
  refine ⟨?_, ?_, ?_⟩
  · intro m h
    rcases fnnChildren_sound t.children none m h with h1 | h1
    · exact absurd h1 (by simp)
    · exact h1
  · rintro ⟨c, hc, hcp⟩
    exact fnnChildren_some_of_unproc t.children none c hc hcp
  · intro m c h hc hcp
    exact (fnnChildren_min t.children none m h).2 c hc hcp

/-- Witness for C3: on a node with a single unprocessed child,
`findNextNode` returns a node. -/
theorem c3_witness :
    findNextNode (.mk none none 0 true false none
      [.mk none none 5 false false none [] []] []) ≠ none :=
  (c3_amended_findNextNode _).2.1
    ⟨.mk none none 5 false false none [] [], by simp [MNode.children], rfl⟩

/-- Witness for C6: re-adding the existing path `require·accessProp` with
a different primitive-literal type leaves the concrete two-node tree and
the counter unchanged. -/
theorem c6_witness :
    addPathAndType [.require "m", .accessProp "f"]
        (.prim "string" (.str "other"))
        (.mk none none none
          [("m", .mk (some (.require "m")) (some (.tag "object")) (some 0)
            []
            [("f", .mk (some (.accessProp "f"))
              (some (.prim "string" (.str "hello"))) (some 1)
              [] [] [] [] [] [])]
            [] [] [] [])]
          [] [] [] [] []) 2
      = (.mk none none none
          [("m", .mk (some (.require "m")) (some (.tag "object")) (some 0)
            []
            [("f", .mk (some (.accessProp "f"))
              (some (.prim "string" (.str "hello"))) (some 1)
              [] [] [] [] [] [])]
            [] [] [] [])]
          [] [] [] [] [], 2) :=
  (c6_addPathAndType_first_observation_wins _ _ _ _).1 rfl

/-- Witness for C10: the `'error'` tag at a concrete unprocessed node. -/
theorem c10_witness :
    synthesizeValue (.mk none (some (.tag "error")) 0 false false none [] [])
        = .error (.jsError ("Cannot synthesize the value, type: " ++ "error"))
    ∧ writePropStep
        (.mk none (some (.tag "error")) 0 false false none [] []) false
        (some .vObject)
        = .error (.jsError ("Cannot synthesize the value, type: " ++ "error"))
    ∧ argStep (.mk none (some (.tag "error")) 0 false false none [] []) none
        = .error
          (.jsError ("Cannot synthesize the value, type: " ++ "error")) :=
  c10_unknown_tag_aborts
    (.mk none (some (.tag "error")) 0 false false none [] []) "error"
    .vObject rfl (by decide) rfl
